import Mathlib

/-!
Shallow embedding of the Feastly loyalty-points ledger (src/app.py).

Modelling conventions:
* Firestore collections are association lists `List (String × α)` keyed by
  document id; `set` is create-or-overwrite (`setDoc`), `update` mutates the
  entry in place (`updateDoc`), `Increment` is an additive delta.
* Timestamps are integers counted in days, so `timedelta(days=d)` is `+ d`
  and `datetime.now(...)` is an explicit `now : Int` parameter.
* Python truthiness of the request fields is modelled as `≠ ""` for strings
  and `≠ 0` for numbers; `clean_phone_number` is applied before the call, so
  phone numbers are taken as already cleaned strings.
* The Firestore transaction in `/redeem` either commits all staged writes or
  raises before any write (all raises happen in the read phase), which the
  embedding renders as `Except`: an `.error` result carries no state.
-/

structure Customer where
  phone_number : String
  customer_name : String
  restaurant_id : String
  points_balance : Int
  total_points_earned : Int
  total_points_redeemed : Int
  total_visits : Int
  registered_at : Int
  last_visit : Int
  last_redeemed_at : Option Int
deriving DecidableEq

structure PointEvent where
  points : Int
  remaining : Int
  customer_phone : String
  restaurant_id : String
  created_at : Int
  expires_at : Int
  expired : Bool
  status : String
  transaction_id : String
  redeemed_at : Option Int
  expired_at : Option Int
deriving DecidableEq

structure TransactionDoc where
  transaction_id : String
  customer_phone : String
  restaurant_id : String
  bill_amount : Int
  points_earned : Int
  created_at : Int
deriving DecidableEq

structure ConsumedEntry where
  point_event_id : String
  used : Int
deriving DecidableEq

structure Redemption where
  redemption_id : String
  customer_phone : String
  points_redeemed : Int
  reward_description : String
  restaurant_id : String
  consumed_events : List ConsumedEntry
  status : String
  created_at : Int
  completed_at : Int
deriving DecidableEq

/-- The document store: one field per Firestore collection touched by the
ledger. `counters` is the single `counters/redemption_counter` document
(`none` = absent); `restaurants` records each restaurant's
`points_expiry_days` field. -/
structure LedgerState where
  transactions : List (String × TransactionDoc)
  customers : List (String × Customer)
  point_events : List (String × PointEvent)
  counters : Option Int
  redemptions : List (String × Redemption)
  restaurants : List (String × Int)
deriving DecidableEq

def emptyState : LedgerState :=
  ⟨[], [], [], none, [], []⟩

def lookupDoc {α : Type} (l : List (String × α)) (k : String) : Option α :=
  match l with
  | [] => none
  | (k', v) :: rest => if k' = k then some v else lookupDoc rest k

def setDoc {α : Type} (l : List (String × α)) (k : String) (v : α) :
    List (String × α) :=
  match l with
  | [] => [(k, v)]
  | (k', v') :: rest => if k' = k then (k, v) :: rest else (k', v') :: setDoc rest k v

def updateDoc {α : Type} (l : List (String × α)) (k : String) (f : α → α) :
    List (String × α) :=
  match l with
  | [] => []
  | (k', v) :: rest => if k' = k then (k, f v) :: rest else (k', v) :: updateDoc rest k f

/-- Customer document id, `f"{customer_phone}_{restaurant_id}"`. -/
def custId (phone rest : String) : String := phone ++ "_" ++ rest

/-- Earn failures: `create_transaction` returns 400 on missing/falsy fields. -/
inductive EarnError where
  | ValidationError
deriving DecidableEq

structure EarnResult where
  point_event_id : String
  expires_at : Int
deriving DecidableEq

/-- Success path of `create_transaction` (everything after the
`Missing required fields` check): saves the transaction document, creates the
point event with the restaurant's expiry (default 90 days), and updates or
creates the customer aggregate. -/
def create_transaction_core (s : LedgerState) (now : Int)
    (transaction_id customer_phone customer_name restaurant_id : String)
    (bill_amount points_earned : Int) : LedgerState × EarnResult :=
  let txn : TransactionDoc :=
    ⟨transaction_id, customer_phone, restaurant_id, bill_amount, points_earned, now⟩
  let s0 := { s with transactions := setDoc s.transactions transaction_id txn }
  let expiry_days := (lookupDoc s0.restaurants restaurant_id).getD 90
  let expires_at := now + expiry_days
  let point_event_id := "pe_" ++ transaction_id
  let pe : PointEvent :=
    ⟨points_earned, points_earned, customer_phone, restaurant_id, now, expires_at,
      false, "active", transaction_id, none, none⟩
  let s1 := { s0 with point_events := setDoc s0.point_events point_event_id pe }
  let cid := custId customer_phone restaurant_id
  let s2 :=
    match lookupDoc s1.customers cid with
    | some current =>
      let current' : Customer :=
        { current with
            points_balance := current.points_balance + points_earned
            total_points_earned := current.total_points_earned + points_earned
            total_visits := current.total_visits + 1
            last_visit := now
            customer_name :=
              if customer_name ≠ "" ∧ current.customer_name = "" then customer_name
              else current.customer_name }
      { s1 with customers := setDoc s1.customers cid current' }
    | none =>
      let fresh : Customer :=
        ⟨customer_phone, customer_name, restaurant_id, points_earned, points_earned,
          0, 1, now, now, none⟩
      { s1 with customers := setDoc s1.customers cid fresh }
  (s2, ⟨point_event_id, expires_at⟩)

/-- The `/create-transaction` route: validation by Python truthiness
(`not all([transaction_id, customer_phone, bill_amount, points_earned])`),
then the success path.  Note the check does not reject negative amounts. -/
def create_transaction (s : LedgerState) (now : Int)
    (transaction_id customer_phone customer_name restaurant_id : String)
    (bill_amount points_earned : Int) : Except EarnError (LedgerState × EarnResult) :=
  if transaction_id = "" ∨ customer_phone = "" ∨ bill_amount = 0 ∨ points_earned = 0 then
    .error .ValidationError
  else
    .ok (create_transaction_core s now transaction_id customer_phone customer_name
          restaurant_id bill_amount points_earned)

/-- Redeem failures, in the order the route and `_txn_redeem` raise them:
`ValidationError` for a missing phone or a non-positive amount (route-level
400s), then the two `ValueError`s of the transaction body. -/
inductive RedeemError where
  | ValidationError
  | CustomerNotFound
  | InsufficientBalance
deriving DecidableEq

structure RedeemResult where
  redemption_id : String
  new_balance : Int
  created_at : Int
deriving DecidableEq

/-- Status filter of the point-event query: `status in ['active', 'partial']`. -/
def isLiveStatus (st : String) : Bool :=
  st = "active" || st = "partial"

def insertByExpiry (p : String × PointEvent) :
    List (String × PointEvent) → List (String × PointEvent)
  | [] => [p]
  | q :: rest =>
    if p.2.expires_at ≤ q.2.expires_at then p :: q :: rest
    else q :: insertByExpiry p rest

/-- Insertion sort by ascending `expires_at`, embedding the query's
`order_by('expires_at')`. -/
def sortByExpiry : List (String × PointEvent) → List (String × PointEvent)
  | [] => []
  | p :: rest => insertByExpiry p (sortByExpiry rest)

/-- The point-event query of `_txn_redeem`: same customer and restaurant,
status in {active, partial}, ordered by ascending `expires_at`, `limit(200)`. -/
def fetchRedeemEvents (s : LedgerState) (phone rest : String) :
    List (String × PointEvent) :=
  (sortByExpiry (s.point_events.filter (fun p =>
    p.2.customer_phone == phone && p.2.restaurant_id == rest
      && isLiveStatus p.2.status))).take 200

def sumUsed : List ConsumedEntry → Int
  | [] => 0
  | c :: rest => c.used + sumUsed rest

/-- Outcome of the greedy consumption loop: the `consumed_events` entries so
far, the `(event id, new_remaining)` updates staged for phase 3, and the final
`remaining_to_consume`. -/
structure GreedyResult where
  consumed : List ConsumedEntry
  updates : List (String × Int)
  leftover : Int
deriving DecidableEq

/-- Phase 2 of `_txn_redeem`: walk the fetched events in order, skip those
with no available points, and consume `use = min(avail, remaining_to_consume)`
from each until nothing is left to consume or the window is exhausted. -/
def greedyConsume (rtc : Int) : List (String × PointEvent) → GreedyResult
  | [] => ⟨[], [], rtc⟩
  | (i, e) :: rest =>
    if rtc ≤ 0 then ⟨[], [], rtc⟩
    else
      let avail := e.remaining
      if avail ≤ 0 then greedyConsume rtc rest
      else
        let use := min avail rtc
        let g := greedyConsume (rtc - use) rest
        ⟨⟨i, use⟩ :: g.consumed, (i, avail - use) :: g.updates, g.leftover⟩

/-- Total points actually available in a fetched window (the sum of the
positive `remaining` values, which is exactly what the greedy loop can cover). -/
def posSum : List (String × PointEvent) → Int
  | [] => 0
  | p :: rest => (if p.2.remaining ≤ 0 then 0 else p.2.remaining) + posSum rest

/-- Phase 3, write 2: each consumed event gets its new `remaining`, status
`redeemed` (if zero) or `partial` (if nonzero), and a `redeemed_at` stamp. -/
def applyEventUpdates (now : Int) (evs : List (String × PointEvent)) :
    List (String × Int) → List (String × PointEvent)
  | [] => evs
  | (i, newRem) :: rest =>
    applyEventUpdates now
      (updateDoc evs i (fun e =>
        if newRem = 0 then
          { e with remaining := 0, status := "redeemed", redeemed_at := some now }
        else
          { e with remaining := newRem, status := "partial", redeemed_at := some now }))
      rest

/-- Zero-padding of the redemption counter, `f"R{new_count:04d}"` without the
leading letter. -/
def pad4 (n : Int) : String :=
  let s := toString n
  if s.length < 4 then String.mk (List.replicate (4 - s.length) '0') ++ s else s

/-- Counter value written by the redemption: previous count plus one, or 1
when the counter document does not exist yet. -/
def redeemCount (s : LedgerState) : Int :=
  match s.counters with | some c => c + 1 | none => 1

/-- The recorded `consumed_events`: the greedy allocation, plus the synthetic
balance-correction entry when the fetched window did not cover the request. -/
def consumedWithSynthetic (g : GreedyResult) : List ConsumedEntry :=
  if 0 < g.leftover then g.consumed ++ [⟨"synthetic_balance_correction", g.leftover⟩]
  else g.consumed

/-- Phases 2 and 3 of `_txn_redeem`, given the customer snapshot read in
phase 1: stage the greedy consumption, then write the counter, the event
updates, the redemption record and the customer aggregate. -/
def txn_redeem_writes (s : LedgerState) (now : Int)
    (customer_phone restaurant_id : String) (points_to_redeem : Int)
    (reward_description : String) (cust : Customer) : LedgerState × RedeemResult :=
  let new_count := redeemCount s
  let fetched := fetchRedeemEvents s customer_phone restaurant_id
  let g := greedyConsume points_to_redeem fetched
  let consumed_events := consumedWithSynthetic g
  let redemption_id := "R" ++ pad4 new_count
  let new_balance := cust.points_balance - points_to_redeem
  let rdoc : Redemption :=
    ⟨redemption_id, customer_phone, points_to_redeem, reward_description,
      restaurant_id, consumed_events, "completed", now, now⟩
  let s1 := { s with counters := some new_count }
  let s2 := { s1 with point_events := applyEventUpdates now s1.point_events g.updates }
  let s3 := { s2 with redemptions := setDoc s2.redemptions redemption_id rdoc }
  let custUpdate : Customer → Customer := fun c =>
    { c with
        points_balance := new_balance
        last_redeemed_at := some now
        total_points_redeemed := c.total_points_redeemed + points_to_redeem }
  let customers4 := updateDoc s3.customers (custId customer_phone restaurant_id) custUpdate
  let s4 := { s3 with customers := customers4 }
  (s4, ⟨redemption_id, new_balance, now⟩)

/-- Phase 1 of `_txn_redeem`: read the customer (raising `CustomerNotFound`
when absent), validate the balance, then run the staged writes.  A raised
error aborts the Firestore transaction, so `.error` carries no state. -/
def txn_redeem (s : LedgerState) (now : Int)
    (customer_phone restaurant_id : String) (points_to_redeem : Int)
    (reward_description : String) : Except RedeemError (LedgerState × RedeemResult) :=
  match lookupDoc s.customers (custId customer_phone restaurant_id) with
  | none => .error .CustomerNotFound
  | some cust =>
    if cust.points_balance < points_to_redeem then .error .InsufficientBalance
    else
      .ok (txn_redeem_writes s now customer_phone restaurant_id points_to_redeem
            reward_description cust)

/-- The `/redeem` route: reject a missing phone or a non-positive amount
before entering the transaction. -/
def redeem_points (s : LedgerState) (now : Int)
    (customer_phone restaurant_id : String) (points_to_redeem : Int)
    (reward_description : String) : Except RedeemError (LedgerState × RedeemResult) :=
  if customer_phone = "" then .error .ValidationError
  else if points_to_redeem ≤ 0 then .error .ValidationError
  else txn_redeem s now customer_phone restaurant_id points_to_redeem reward_description

/-- Observable state after a `/redeem` call: a failed transaction leaves the
store untouched. -/
def redeemEndState (s : LedgerState) (now : Int)
    (customer_phone restaurant_id : String) (points_to_redeem : Int)
    (reward_description : String) : LedgerState :=
  match redeem_points s now customer_phone restaurant_id points_to_redeem
      reward_description with
  | .ok (s', _) => s'
  | .error _ => s

/-- An event is processed by the expiry sweep when the query selects it
(`expires_at <= now`) and the in-loop guard keeps it
(not `data.get('expired', False)` and `remaining > 0`). -/
def dueForExpiry (now : Int) (e : PointEvent) : Bool :=
  decide (e.expires_at ≤ now) && !e.expired && decide (0 < e.remaining)

/-- The batched event update of the sweep: `expired=True`, `expired_at=now`,
`remaining=0`, `status='expired'`. -/
def expiredVersion (now : Int) (e : PointEvent) : PointEvent :=
  { e with expired := true, expired_at := some now, remaining := 0, status := "expired" }

/-- `admin_firestore.Increment(delta)` applied to a customer's
`points_balance`. -/
def incrBalance (cs : List (String × Customer)) (k : String) (delta : Int) :
    List (String × Customer) :=
  updateDoc cs k (fun c => { c with points_balance := c.points_balance + delta })

/-- The `/run-expiry` sweep.  The source pages through the
`expires_at <= now` query in batches of 400 and commits one batch per page;
as every page applies the same independent per-event update and per-customer
delta, the paging is embedded as a single pass: each due event is replaced by
its expired version, and each due event's owner receives an
`Increment(-remaining)` on `points_balance`.  Returns the updated store and
the count of expired events. -/
def run_expiry (now : Int) (s : LedgerState) : LedgerState × Nat :=
  let due := s.point_events.filter (fun p => dueForExpiry now p.2)
  let customers' := due.foldl (fun cs p =>
    incrBalance cs (custId p.2.customer_phone p.2.restaurant_id) (-p.2.remaining))
    s.customers
  let events' := s.point_events.map (fun p =>
    if dueForExpiry now p.2 then (p.1, expiredVersion now p.2) else p)
  ({ s with point_events := events', customers := customers' }, due.length)

structure CheckBalanceResult where
  found : Bool
  points_balance : Int
  recomputed_balance : Option Int
  balance_match : Option Bool
deriving DecidableEq

/-- Modelled from the spec: src/app.py has no CheckBalance endpoint (the
webhook's balance-check block was removed), so this follows §4.3 and §6 of
the spec verbatim — always return the cached `points_balance`; when
`recompute` is requested, additionally sum `remaining` across all Point
Events with status in {active, partial} for the customer and report both the
recomputed total and a boolean equality flag against the cached balance.
It is a pure read: no state is returned because none is written. -/
def checkBalance (s : LedgerState) (phone rest : String) (recompute : Bool) :
    CheckBalanceResult :=
  match lookupDoc s.customers (custId phone rest) with
  | none => ⟨false, 0, none, none⟩
  | some c =>
    if recompute then
      let total := (s.point_events.filter (fun p =>
        p.2.customer_phone == phone && p.2.restaurant_id == rest
          && isLiveStatus p.2.status)).foldl (fun acc p => acc + p.2.remaining) 0
      ⟨true, c.points_balance, some total, some (decide (total = c.points_balance))⟩
    else ⟨true, c.points_balance, none, none⟩

/-- One ledger operation of §8's earn/redeem sequences. -/
inductive LedgerOp where
  | earn (now : Int) (transaction_id customer_phone customer_name restaurant_id : String)
      (bill_amount points_earned : Int)
  | redeemOp (now : Int) (customer_phone restaurant_id : String)
      (points_to_redeem : Int) (reward_description : String)

/-- Apply one operation; a rejected call leaves the store unchanged. -/
def applyOp (s : LedgerState) : LedgerOp → LedgerState
  | .earn now tid phone name rest bill pts =>
    match create_transaction s now tid phone name rest bill pts with
    | .ok (s', _) => s'
    | .error _ => s
  | .redeemOp now phone rest n desc =>
    match redeem_points s now phone rest n desc with
    | .ok (s', _) => s'
    | .error _ => s

def applyOps (s : LedgerState) (ops : List LedgerOp) : LedgerState :=
  ops.foldl applyOp s

/-- An earn operation granting a nonnegative number of points (redeems are
unconstrained: the `InsufficientBalance` check is part of `redeem_points`). -/
def earnNonneg : LedgerOp → Bool
  | .earn _ _ _ _ _ _ pts => decide (0 ≤ pts)
  | .redeemOp _ _ _ _ _ => true

/-- Every customer document in the store has a nonnegative cached balance. -/
def NonnegBalances (s : LedgerState) : Prop :=
  ∀ p ∈ s.customers, (0 : Int) ≤ p.2.points_balance

instance : DecidablePred NonnegBalances := fun s =>
  inferInstanceAs (Decidable (∀ p ∈ s.customers, (0 : Int) ≤ p.2.points_balance))

def custBalance (s : LedgerState) (k : String) : Int :=
  ((lookupDoc s.customers k).map (fun c => c.points_balance)).getD 0

def custEarned (s : LedgerState) (k : String) : Int :=
  ((lookupDoc s.customers k).map (fun c => c.total_points_earned)).getD 0

def custVisits (s : LedgerState) (k : String) : Int :=
  ((lookupDoc s.customers k).map (fun c => c.total_visits)).getD 0

def custName (s : LedgerState) (k : String) : String :=
  ((lookupDoc s.customers k).map (fun c => c.customer_name)).getD ""

def custLastVisit (s : LedgerState) (k : String) : Option Int :=
  (lookupDoc s.customers k).map (fun c => c.last_visit)

/-- Comparison used to state that fetched events are sorted by expiry. -/
def expiryLE (a b : String × PointEvent) : Prop :=
  a.2.expires_at ≤ b.2.expires_at

/-- The amount the expiry sweep subtracts from the customer keyed `k`:
the `remaining` of each processed event that customer owns. -/
def keySum : List (String × PointEvent) → String → Int
  | [], _ => 0
  | p :: rest, k =>
    (if custId p.2.customer_phone p.2.restaurant_id = k then p.2.remaining else 0)
      + keySum rest k

/-- Sum of `remaining` over a customer's live (active or partial) point
events, stated independently of `checkBalance` for comparison. -/
def liveEventSum (s : LedgerState) (phone rest : String) : Int :=
  ((s.point_events.filter (fun p =>
    p.2.customer_phone == phone && p.2.restaurant_id == rest
      && isLiveStatus p.2.status)).map (fun p => p.2.remaining)).sum

/-- Concrete customer with balance 80 used in the witness scenarios. -/
def custTwo : Customer := ⟨"p1", "Al", "r1", 80, 80, 0, 2, 0, 1, none⟩

/-- Event E1 of §8's FIFO scenario: remaining 30, earlier expiry. -/
def eventOne : PointEvent := ⟨30, 30, "p1", "r1", 0, 100, false, "active", "t1", none, none⟩

/-- Event E2 of §8's FIFO scenario: remaining 50, later expiry. -/
def eventTwo : PointEvent := ⟨50, 50, "p1", "r1", 1, 200, false, "active", "t2", none, none⟩

/-- Store for the FIFO scenario; the later-expiring event is listed first so
the redemption query must re-order the window. -/
def sTwo : LedgerState :=
  ⟨[], [("p1_r1", custTwo)], [("e2", eventTwo), ("e1", eventOne)], none, [], []⟩

/-- Customer whose cached balance (100) exceeds the live event total (10). -/
def custDrift : Customer := ⟨"p1", "Al", "r1", 100, 100, 0, 1, 0, 0, none⟩

/-- Store exhibiting balance/event drift: cached balance 100 but only 10
points live in events. -/
def sDrift : LedgerState :=
  ⟨[], [("p1_r1", custDrift)],
    [("e1", ⟨10, 10, "p1", "r1", 0, 100, false, "active", "t1", none, none⟩)],
    none, [], []⟩

/-- Customer owning the past-due event of the expiry scenario. -/
def custDue : Customer := ⟨"p1", "Al", "r1", 30, 30, 0, 1, 0, 0, none⟩

/-- The past-due event of §8's expiry scenario: remaining 30, expired at 10. -/
def eventDue : PointEvent := ⟨30, 30, "p1", "r1", 0, 10, false, "active", "t1", none, none⟩

/-- Store with one past-due event (remaining 30) for the expiry scenario. -/
def sDue : LedgerState :=
  ⟨[], [("p1_r1", custDue)], [("e1", eventDue)], none, [], []⟩

/-- Result returned by redeeming 40 points in the FIFO scenario. -/
def rTwoAfter : RedeemResult := ⟨"R0001", 40, 2⟩

/-- Store after one earn of 10 points under transaction id `t1`. -/
def s9 : LedgerState :=
  applyOps emptyState [LedgerOp.earn 0 "t1" "p1" "Al" "r1" 100 10]

/-- State after redeeming 40 points in the FIFO scenario. -/
def sTwoAfter : LedgerState := redeemEndState sTwo 2 "p1" "r1" 40 "d"



theorem lookupDoc_setDoc_self {α : Type} (l : List (String × α)) (k : String) (v : α) :
    lookupDoc (setDoc l k v) k = some v := by
  induction l with
  | nil => simp [setDoc, lookupDoc]
  | cons p rest ih =>
    by_cases h : p.1 = k
    · simp [setDoc, lookupDoc, h]
    · simp [setDoc, lookupDoc, h, ih]

theorem length_setDoc {α : Type} (l : List (String × α)) (k : String) (v : α)
    (h : lookupDoc l k = none) : (setDoc l k v).length = l.length + 1 := by
  induction l with
  | nil => simp [setDoc]
  | cons p rest ih =>
    by_cases hk : p.1 = k
    · simp [lookupDoc, hk] at h
    · simp [lookupDoc, hk] at h
      simp [setDoc, hk, ih h]

theorem lookupDoc_updateDoc_self {α : Type} (l : List (String × α)) (k : String)
    (f : α → α) : lookupDoc (updateDoc l k f) k = (lookupDoc l k).map f := by
  induction l with
  | nil => simp [updateDoc, lookupDoc]
  | cons p rest ih =>
    by_cases h : p.1 = k
    · simp [updateDoc, lookupDoc, h]
    · simp [updateDoc, lookupDoc, h, ih]

theorem lookupDoc_updateDoc_ne {α : Type} (l : List (String × α)) (k k' : String)
    (f : α → α) (h : k' ≠ k) :
    lookupDoc (updateDoc l k f) k' = lookupDoc l k' := by
  induction l with
  | nil => simp [updateDoc]
  | cons p rest ih =>
    by_cases hk : p.1 = k
    · subst hk
      have h1 : ¬ p.1 = k' := fun hh => h hh.symm
      simp [updateDoc, lookupDoc, h1]
    · by_cases hk' : p.1 = k'
      · simp [updateDoc, lookupDoc, hk, hk', h]
      · simp [updateDoc, lookupDoc, hk, hk', ih]

theorem mem_setDoc {α : Type} {l : List (String × α)} {k : String} {v : α}
    {p : String × α} (h : p ∈ setDoc l k v) : p = (k, v) ∨ p ∈ l := by
  induction l with
  | nil => simpa [setDoc] using h
  | cons q rest ih =>
    by_cases hk : q.1 = k
    · simp only [setDoc, if_pos hk, List.mem_cons] at h
      rcases h with h | h
      · exact Or.inl h
      · exact Or.inr (List.mem_cons_of_mem _ h)
    · simp only [setDoc, if_neg hk, List.mem_cons] at h
      rcases h with h | h
      · exact Or.inr (h ▸ List.mem_cons_self _ _)
      · rcases ih h with h' | h'
        · exact Or.inl h'
        · exact Or.inr (List.mem_cons_of_mem _ h')

theorem mem_updateDoc {α : Type} {l : List (String × α)} {k : String} {f : α → α}
    {p : String × α} (h : p ∈ updateDoc l k f) :
    p ∈ l ∨ ∃ v, lookupDoc l k = some v ∧ p = (k, f v) := by
  induction l with
  | nil => simp [updateDoc] at h
  | cons q rest ih =>
    by_cases hk : q.1 = k
    · simp only [updateDoc, if_pos hk, List.mem_cons] at h
      rcases h with h | h
      · exact Or.inr ⟨q.2, by simp [lookupDoc, hk], h⟩
      · exact Or.inl (List.mem_cons_of_mem _ h)
    · simp only [updateDoc, if_neg hk, List.mem_cons] at h
      rcases h with h | h
      · exact Or.inl (h ▸ List.mem_cons_self _ _)
      · rcases ih h with h' | ⟨v, hv, hp⟩
        · exact Or.inl (List.mem_cons_of_mem _ h')
        · exact Or.inr ⟨v, by simp [lookupDoc, hk, hv], hp⟩

theorem lookupDoc_mem {α : Type} {l : List (String × α)} {k : String} {v : α}
    (h : lookupDoc l k = some v) : (k, v) ∈ l := by
  induction l with
  | nil => simp [lookupDoc] at h
  | cons q rest ih =>
    by_cases hk : q.1 = k
    · simp only [lookupDoc, if_pos hk] at h
      cases h
      subst hk
      exact List.mem_cons_self _ _
    · simp only [lookupDoc, if_neg hk] at h
      exact List.mem_cons_of_mem _ (ih h)

theorem sumUsed_append (a b : List ConsumedEntry) :
    sumUsed (a ++ b) = sumUsed a + sumUsed b := by
  induction a with
  | nil => simp [sumUsed]
  | cons c rest ih => simp [sumUsed, ih]; ring

theorem greedyConsume_sum :
    ∀ (l : List (String × PointEvent)) (rtc : Int),
      sumUsed (greedyConsume rtc l).consumed + (greedyConsume rtc l).leftover = rtc
  | [], rtc => by simp [greedyConsume, sumUsed]
  | (i, e) :: rest, rtc => by
    by_cases h1 : rtc ≤ 0
    · simp [greedyConsume, h1, sumUsed]
    · by_cases h2 : e.remaining ≤ 0
      · simpa [greedyConsume, h1, h2] using greedyConsume_sum rest rtc
      · have ih := greedyConsume_sum rest (rtc - min e.remaining rtc)
        simp only [greedyConsume, if_neg h1, if_neg h2, sumUsed]
        omega

theorem greedyConsume_leftover_nonneg :
    ∀ (l : List (String × PointEvent)) {rtc : Int}, 0 ≤ rtc →
      0 ≤ (greedyConsume rtc l).leftover
  | [], rtc, h => by simpa [greedyConsume] using h
  | (i, e) :: rest, rtc, h => by
    by_cases h1 : rtc ≤ 0
    · simpa [greedyConsume, h1] using h
    · by_cases h2 : e.remaining ≤ 0
      · simpa [greedyConsume, h1, h2] using greedyConsume_leftover_nonneg rest h
      · have hge : (0 : Int) ≤ rtc - min e.remaining rtc := by omega
        have ih := greedyConsume_leftover_nonneg rest hge
        simpa [greedyConsume, if_neg h1, if_neg h2] using ih

theorem posSum_nonneg : ∀ l : List (String × PointEvent), 0 ≤ posSum l
  | [] => by simp [posSum]
  | p :: rest => by
    have := posSum_nonneg rest
    by_cases h : p.2.remaining ≤ 0 <;> simp [posSum, h] <;> omega

theorem greedyConsume_leftover_eq :
    ∀ (l : List (String × PointEvent)) {rtc : Int}, 0 ≤ rtc →
      (greedyConsume rtc l).leftover = max (rtc - posSum l) 0
  | [], rtc, h => by
    simp [greedyConsume, posSum]
    omega
  | (i, e) :: rest, rtc, h => by
    by_cases h1 : rtc ≤ 0
    · have hz : rtc = 0 := le_antisymm h1 h
      subst hz
      have := posSum_nonneg (⟨i, e⟩ :: rest)
      simp [greedyConsume]
      omega
    · by_cases h2 : e.remaining ≤ 0
      · have ih := greedyConsume_leftover_eq rest h
        simp only [greedyConsume, if_neg h1, if_pos h2, posSum, if_pos h2]
        omega
      · have hge : (0 : Int) ≤ rtc - min e.remaining rtc := by omega
        have ih := greedyConsume_leftover_eq rest hge
        have hp := posSum_nonneg rest
        simp only [greedyConsume, if_neg h1, if_neg h2, posSum]
        omega

theorem sumUsed_consumedWithSynthetic {rtc : Int} (l : List (String × PointEvent))
    (h : 0 ≤ rtc) : sumUsed (consumedWithSynthetic (greedyConsume rtc l)) = rtc := by
  have hsum := greedyConsume_sum l rtc
  unfold consumedWithSynthetic
  by_cases hpos : 0 < (greedyConsume rtc l).leftover
  · rw [if_pos hpos, sumUsed_append]
    simp [sumUsed]
    omega
  · rw [if_neg hpos]
    have := greedyConsume_leftover_nonneg l h
    omega

theorem mem_insertByExpiry {p q : String × PointEvent}
    {l : List (String × PointEvent)} (h : q ∈ insertByExpiry p l) :
    q = p ∨ q ∈ l := by
  induction l with
  | nil => simpa [insertByExpiry] using h
  | cons r rest ih =>
    by_cases hle : p.2.expires_at ≤ r.2.expires_at
    · simp only [insertByExpiry, if_pos hle, List.mem_cons] at h
      rcases h with h | h | h
      · exact Or.inl h
      · exact Or.inr (by simp [h])
      · exact Or.inr (List.mem_cons_of_mem _ h)
    · simp only [insertByExpiry, if_neg hle, List.mem_cons] at h
      rcases h with h | h
      · exact Or.inr (by simp [h])
      · rcases ih h with h' | h'
        · exact Or.inl h'
        · exact Or.inr (List.mem_cons_of_mem _ h')

theorem pairwise_insertByExpiry {p : String × PointEvent}
    {l : List (String × PointEvent)} (h : l.Pairwise expiryLE) :
    (insertByExpiry p l).Pairwise expiryLE := by
  induction l with
  | nil => simp [insertByExpiry, List.Pairwise]
  | cons q rest ih =>
    rcases List.pairwise_cons.mp h with ⟨hq, hrest⟩
    by_cases hle : p.2.expires_at ≤ q.2.expires_at
    · rw [insertByExpiry, if_pos hle]
      refine List.pairwise_cons.mpr ⟨?_, h⟩
      intro a ha
      rcases List.mem_cons.mp ha with ha | ha
      · exact ha ▸ hle
      · exact le_trans hle (hq a ha)
    · rw [insertByExpiry, if_neg hle]
      refine List.pairwise_cons.mpr ⟨?_, ih hrest⟩
      intro a ha
      rcases mem_insertByExpiry ha with ha | ha
      · subst ha
        exact le_of_not_le hle
      · exact hq a ha

theorem pairwise_sortByExpiry (l : List (String × PointEvent)) :
    (sortByExpiry l).Pairwise expiryLE := by
  induction l with
  | nil => simp [sortByExpiry]
  | cons p rest ih => exact pairwise_insertByExpiry ih

theorem pairwise_fetchRedeemEvents (s : LedgerState) (phone rest : String) :
    (fetchRedeemEvents s phone rest).Pairwise expiryLE := by
  unfold fetchRedeemEvents
  exact List.Pairwise.sublist (List.take_sublist _ _) (pairwise_sortByExpiry _)

theorem map_eq_self_of {α : Type} {l : List α} {f : α → α}
    (h : ∀ a ∈ l, f a = a) : l.map f = l := by
  induction l with
  | nil => rfl
  | cons a rest ih =>
    simp only [List.map_cons, h a (List.mem_cons_self _ _),
      ih (fun b hb => h b (List.mem_cons_of_mem _ hb))]

theorem foldl_add_eq_sum (f : (String × PointEvent) → Int) :
    ∀ (l : List (String × PointEvent)) (b : Int),
      l.foldl (fun acc p => acc + f p) b = b + (l.map f).sum
  | [], b => by simp
  | p :: rest, b => by
    simp only [List.foldl_cons, List.map_cons, List.sum_cons]
    rw [foldl_add_eq_sum f rest (b + f p)]
    ring

theorem lookupDoc_foldl_incr :
    ∀ (l : List (String × PointEvent)) (cs : List (String × Customer)) (k : String),
      lookupDoc (l.foldl (fun cs p =>
          incrBalance cs (custId p.2.customer_phone p.2.restaurant_id) (-p.2.remaining)) cs) k
        = (lookupDoc cs k).map (fun c =>
            { c with points_balance := c.points_balance - keySum l k })
  | [], cs, k => by
    cases h : lookupDoc cs k with
    | none => simp [keySum, h]
    | some c =>
      simp only [List.foldl_nil, h, keySum, Option.map_some']
      cases c
      simp
  | p :: rest, cs, k => by
    simp only [List.foldl_cons]
    rw [lookupDoc_foldl_incr rest]
    by_cases hk : custId p.2.customer_phone p.2.restaurant_id = k
    · rw [hk, incrBalance, lookupDoc_updateDoc_self]
      cases h : lookupDoc cs k with
      | none => simp [h]
      | some c =>
        simp only [h, Option.map_some', keySum, if_pos hk]
        cases c
        simp only [Option.some.injEq, Customer.mk.injEq, eq_self_iff_true,
          true_and, and_true]
        ring
    · rw [incrBalance, lookupDoc_updateDoc_ne _ _ _ _ (fun hh => hk hh.symm)]
      simp only [keySum, if_neg hk]
      cases h : lookupDoc cs k with
      | none => simp [h]
      | some c =>
        simp only [h, Option.map_some']
        cases c
        simp

theorem create_transaction_ok {s : LedgerState} {now : Int}
    {tid phone name rest : String} {bill pts : Int}
    (h1 : tid ≠ "") (h2 : phone ≠ "") (h3 : bill ≠ 0) (h4 : pts ≠ 0) :
    create_transaction s now tid phone name rest bill pts =
      .ok (create_transaction_core s now tid phone name rest bill pts) := by
  simp [create_transaction, h1, h2, h3, h4]

theorem redeem_points_ok {s : LedgerState} {now : Int} {phone rest desc : String}
    {n : Int} {cust : Customer}
    (hp : phone ≠ "") (hn : 0 < n)
    (hc : lookupDoc s.customers (custId phone rest) = some cust)
    (hb : n ≤ cust.points_balance) :
    redeem_points s now phone rest n desc =
      .ok (txn_redeem_writes s now phone rest n desc cust) := by
  have h1 : ¬ n ≤ 0 := by omega
  have h2 : ¬ cust.points_balance < n := not_lt.mpr hb
  simp [redeem_points, txn_redeem, hp, hc, h1, h2]

theorem redeem_points_ok_inv {s : LedgerState} {now : Int} {phone rest desc : String}
    {n : Int} {s' : LedgerState} {r : RedeemResult}
    (h : redeem_points s now phone rest n desc = .ok (s', r)) :
    ∃ cust, phone ≠ "" ∧ 0 < n ∧
      lookupDoc s.customers (custId phone rest) = some cust ∧
      n ≤ cust.points_balance ∧
      (s', r) = txn_redeem_writes s now phone rest n desc cust := by
  by_cases hp : phone = ""
  · simp [redeem_points, hp] at h
  · by_cases hn : n ≤ 0
    · simp [redeem_points, hp, hn] at h
    · rw [redeem_points, if_neg hp, if_neg hn, txn_redeem] at h
      cases hc : lookupDoc s.customers (custId phone rest) with
      | none =>
        rw [hc] at h
        simp at h
      | some cust =>
        rw [hc] at h
        by_cases hbal : cust.points_balance < n
        · simp [hbal] at h
        · simp only [hbal, if_false, reduceIte, Except.ok.injEq] at h
          exact ⟨cust, hp, by omega, rfl, by omega, h.symm⟩

theorem txn_redeem_writes_customers (s : LedgerState) (now : Int)
    (phone rest : String) (n : Int) (desc : String) (cust : Customer) :
    (txn_redeem_writes s now phone rest n desc cust).1.customers =
      updateDoc s.customers (custId phone rest) (fun c =>
        { c with
            points_balance := cust.points_balance - n
            last_redeemed_at := some now
            total_points_redeemed := c.total_points_redeemed + n }) := rfl

theorem txn_redeem_writes_result (s : LedgerState) (now : Int)
    (phone rest : String) (n : Int) (desc : String) (cust : Customer) :
    (txn_redeem_writes s now phone rest n desc cust).2 =
      ⟨"R" ++ pad4 (redeemCount s), cust.points_balance - n, now⟩ := rfl

theorem txn_redeem_writes_redemptions (s : LedgerState) (now : Int)
    (phone rest : String) (n : Int) (desc : String) (cust : Customer) :
    (txn_redeem_writes s now phone rest n desc cust).1.redemptions =
      setDoc s.redemptions ("R" ++ pad4 (redeemCount s))
        ⟨"R" ++ pad4 (redeemCount s), phone, n, desc, rest,
          consumedWithSynthetic (greedyConsume n (fetchRedeemEvents s phone rest)),
          "completed", now, now⟩ := rfl

theorem txn_redeem_writes_counters (s : LedgerState) (now : Int)
    (phone rest : String) (n : Int) (desc : String) (cust : Customer) :
    (txn_redeem_writes s now phone rest n desc cust).1.counters =
      some (redeemCount s) := rfl

theorem txn_redeem_writes_point_events (s : LedgerState) (now : Int)
    (phone rest : String) (n : Int) (desc : String) (cust : Customer) :
    (txn_redeem_writes s now phone rest n desc cust).1.point_events =
      applyEventUpdates now s.point_events
        (greedyConsume n (fetchRedeemEvents s phone rest)).updates := rfl

theorem run_expiry_point_events (now : Int) (s : LedgerState) :
    (run_expiry now s).1.point_events =
      s.point_events.map (fun p =>
        if dueForExpiry now p.2 then (p.1, expiredVersion now p.2) else p) := rfl

theorem run_expiry_customers (now : Int) (s : LedgerState) :
    (run_expiry now s).1.customers =
      (s.point_events.filter (fun p => dueForExpiry now p.2)).foldl (fun cs p =>
        incrBalance cs (custId p.2.customer_phone p.2.restaurant_id) (-p.2.remaining))
        s.customers := rfl

theorem run_expiry_count (now : Int) (s : LedgerState) :
    (run_expiry now s).2 =
      (s.point_events.filter (fun p => dueForExpiry now p.2)).length := rfl

theorem dueForExpiry_expiredVersion (now now' : Int) (e : PointEvent) :
    dueForExpiry now' (expiredVersion now e) = false := by
  simp [dueForExpiry, expiredVersion]

theorem run_expiry_no_due (now : Int) (s : LedgerState) :
    ∀ p ∈ (run_expiry now s).1.point_events, dueForExpiry now p.2 = false := by
  intro p hp
  rw [run_expiry_point_events] at hp
  rcases List.mem_map.mp hp with ⟨q, hq, hfq⟩
  by_cases hd : dueForExpiry now q.2
  · rw [if_pos hd] at hfq
    rw [← hfq]
    exact dueForExpiry_expiredVersion now now q.2
  · rw [if_neg hd] at hfq
    rw [← hfq]
    exact Bool.not_eq_true _ ▸ (by simpa using hd)

theorem create_transaction_core_point_events (s : LedgerState) (now : Int)
    (tid phone name rest : String) (bill pts : Int) :
    (create_transaction_core s now tid phone name rest bill pts).1.point_events =
      setDoc s.point_events ("pe_" ++ tid)
        ⟨pts, pts, phone, rest, now, now + ((lookupDoc s.restaurants rest).getD 90),
          false, "active", tid, none, none⟩ := by
  cases hcust : lookupDoc s.customers (custId phone rest) <;>
    simp [create_transaction_core, hcust]

theorem create_transaction_core_customers (s : LedgerState) (now : Int)
    (tid phone name rest : String) (bill pts : Int) :
    (create_transaction_core s now tid phone name rest bill pts).1.customers =
      (match lookupDoc s.customers (custId phone rest) with
       | some current =>
         setDoc s.customers (custId phone rest)
           { current with
               points_balance := current.points_balance + pts
               total_points_earned := current.total_points_earned + pts
               total_visits := current.total_visits + 1
               last_visit := now
               customer_name :=
                 if name ≠ "" ∧ current.customer_name = "" then name
                 else current.customer_name }
       | none =>
         setDoc s.customers (custId phone rest)
           ⟨phone, name, rest, pts, pts, 0, 1, now, now, none⟩) := by
  cases hcust : lookupDoc s.customers (custId phone rest) <;>
    simp [create_transaction_core, hcust]

theorem create_transaction_core_result (s : LedgerState) (now : Int)
    (tid phone name rest : String) (bill pts : Int) :
    (create_transaction_core s now tid phone name rest bill pts).2 =
      ⟨"pe_" ++ tid, now + ((lookupDoc s.restaurants rest).getD 90)⟩ := rfl

theorem create_transaction_ok_inv {s : LedgerState} {now : Int}
    {tid phone name rest : String} {bill pts : Int}
    {pr : LedgerState × EarnResult}
    (h : create_transaction s now tid phone name rest bill pts = .ok pr) :
    pr = create_transaction_core s now tid phone name rest bill pts := by
  unfold create_transaction at h
  by_cases hv : tid = "" ∨ phone = "" ∨ bill = 0 ∨ pts = 0
  · rw [if_pos hv] at h
    cases h
  · rw [if_neg hv] at h
    cases h
    rfl

/-- C6: the expiry sweep is idempotent — a second run at the same instant,
immediately after a first run, expires zero additional events and leaves the
whole store (in particular every customer's `points_balance`) unchanged,
because already-expired events and events with nothing remaining are skipped. -/
theorem run_expiry_idempotent (now : Int) (s : LedgerState) :
    run_expiry now (run_expiry now s).1 = ((run_expiry now s).1, 0) := by
  have hnone := run_expiry_no_due now s
  have hfilter : (run_expiry now s).1.point_events.filter
      (fun p => dueForExpiry now p.2) = [] :=
    List.filter_eq_nil_iff.mpr (fun p hp => by simp [hnone p hp])
  have hmap : (run_expiry now s).1.point_events.map
      (fun p => if dueForExpiry now p.2 then (p.1, expiredVersion now p.2) else p)
      = (run_expiry now s).1.point_events :=
    map_eq_self_of (fun p hp => by simp [hnone p hp])
  generalize hS : (run_expiry now s).1 = S at hfilter hmap ⊢
  simp only [run_expiry, hfilter, hmap, List.foldl_nil, List.length_nil]

/-- C5: any event selected by the sweep (past `expires_at`, not yet expired,
positive remaining) ends with `remaining = 0`, `status = "expired"` and
`expired_at = now`, and every customer's cached balance drops by the sum of
the prior `remaining` of their processed events — exactly the event's own
prior `remaining` when it is the only processed event. -/
theorem run_expiry_event_effects (now : Int) (s : LedgerState)
    (i : String) (e : PointEvent)
    (hmem : (i, e) ∈ s.point_events) (hdue : dueForExpiry now e = true) :
    (i, expiredVersion now e) ∈ (run_expiry now s).1.point_events
    ∧ (expiredVersion now e).remaining = 0
    ∧ (expiredVersion now e).status = "expired"
    ∧ (expiredVersion now e).expired_at = some now
    ∧ (∀ k, lookupDoc (run_expiry now s).1.customers k =
        (lookupDoc s.customers k).map (fun c =>
          { c with points_balance := c.points_balance -
              keySum (s.point_events.filter (fun p => dueForExpiry now p.2)) k }))
    ∧ (∀ c, lookupDoc s.customers (custId e.customer_phone e.restaurant_id) = some c →
        s.point_events.filter (fun p => dueForExpiry now p.2) = [(i, e)] →
        custBalance (run_expiry now s).1 (custId e.customer_phone e.restaurant_id)
          = c.points_balance - e.remaining) := by
  refine ⟨?_, rfl, rfl, rfl, ?_, ?_⟩
  · rw [run_expiry_point_events]
    have h := List.mem_map_of_mem
      (fun p : String × PointEvent =>
        if dueForExpiry now p.2 then (p.1, expiredVersion now p.2) else p) hmem
    simpa [hdue] using h
  · intro k
    rw [run_expiry_customers]
    exact lookupDoc_foldl_incr _ _ k
  · intro c hc hone
    unfold custBalance
    rw [run_expiry_customers, hone]
    simp only [List.foldl_cons, List.foldl_nil, incrBalance,
      lookupDoc_updateDoc_self, hc, Option.map_some']
    simp
    ring

/-- Witness for C5 at the concrete §8 expiry scenario: one event with
remaining 30 past its expiry; the sweep expires it and the balance drops by
30, from 30 to 0. -/
theorem run_expiry_event_effects_witness :
    ("e1", expiredVersion 50 eventDue) ∈ (run_expiry 50 sDue).1.point_events
    ∧ custBalance (run_expiry 50 sDue).1 (custId "p1" "r1") =
        custDue.points_balance - eventDue.remaining := by
  have h := run_expiry_event_effects 50 sDue "e1" eventDue (by decide) (by decide)
  exact ⟨h.1, h.2.2.2.2.2 custDue (by decide) (by decide)⟩

/-- C1: conservation under redemption — for a successful redeem of `n`
points, the created redemption record's `consumed_events` sum to exactly
`n` in their `used` fields, and the customer's cached balance drops by
exactly `n`. -/
theorem redeem_conservation (s : LedgerState) (now : Int)
    (phone rest desc : String) (n : Int) (cust : Customer)
    (hp : phone ≠ "") (hn : 0 < n)
    (hc : lookupDoc s.customers (custId phone rest) = some cust)
    (hb : n ≤ cust.points_balance) :
    ∃ s' r, redeem_points s now phone rest n desc = .ok (s', r)
      ∧ (∃ rd, lookupDoc s'.redemptions r.redemption_id = some rd
          ∧ sumUsed rd.consumed_events = n)
      ∧ r.new_balance = cust.points_balance - n
      ∧ custBalance s' (custId phone rest) = cust.points_balance - n := by
  refine ⟨(txn_redeem_writes s now phone rest n desc cust).1,
          (txn_redeem_writes s now phone rest n desc cust).2,
          ?_, ?_, ?_, ?_⟩
  · rw [redeem_points_ok hp hn hc hb]
  · rw [txn_redeem_writes_redemptions, txn_redeem_writes_result]
    exact ⟨_, lookupDoc_setDoc_self _ _ _,
      sumUsed_consumedWithSynthetic _ (by omega)⟩
  · rw [txn_redeem_writes_result]
  · unfold custBalance
    rw [txn_redeem_writes_customers, lookupDoc_updateDoc_self, hc]
    simp

/-- Witness for C1: redeeming 40 of 80 points in the concrete store. -/
theorem redeem_conservation_witness :
    ∃ s' r, redeem_points sTwo 2 "p1" "r1" 40 "d" = .ok (s', r)
      ∧ (∃ rd, lookupDoc s'.redemptions r.redemption_id = some rd
          ∧ sumUsed rd.consumed_events = 40)
      ∧ r.new_balance = custTwo.points_balance - 40
      ∧ custBalance s' (custId "p1" "r1") = custTwo.points_balance - 40 :=
  redeem_conservation sTwo 2 "p1" "r1" "d" 40 custTwo
    (by decide) (by decide) (by decide) (by decide)

/-- C7: when the fetched event window cannot cover the requested amount, the
redemption still succeeds; the record ends with a synthetic
`synthetic_balance_correction` entry carrying the uncovered remainder, the
recorded consumption still totals the requested amount, and the cached
balance is decremented as requested. -/
theorem redeem_synthetic_correction (s : LedgerState) (now : Int)
    (phone rest desc : String) (n : Int) (cust : Customer)
    (hp : phone ≠ "") (hn : 0 < n)
    (hc : lookupDoc s.customers (custId phone rest) = some cust)
    (hb : n ≤ cust.points_balance)
    (hshort : posSum (fetchRedeemEvents s phone rest) < n) :
    ∃ s' r, redeem_points s now phone rest n desc = .ok (s', r)
      ∧ ∃ rd, lookupDoc s'.redemptions r.redemption_id = some rd
        ∧ rd.consumed_events =
            (greedyConsume n (fetchRedeemEvents s phone rest)).consumed
              ++ [⟨"synthetic_balance_correction",
                    n - posSum (fetchRedeemEvents s phone rest)⟩]
        ∧ sumUsed rd.consumed_events = n
        ∧ r.new_balance = cust.points_balance - n := by
  have hleft : (greedyConsume n (fetchRedeemEvents s phone rest)).leftover
      = n - posSum (fetchRedeemEvents s phone rest) := by
    have := greedyConsume_leftover_eq (fetchRedeemEvents s phone rest) (le_of_lt hn)
    omega
  refine ⟨(txn_redeem_writes s now phone rest n desc cust).1,
          (txn_redeem_writes s now phone rest n desc cust).2, ?_, ?_⟩
  · rw [redeem_points_ok hp hn hc hb]
  · rw [txn_redeem_writes_redemptions, txn_redeem_writes_result]
    refine ⟨_, lookupDoc_setDoc_self _ _ _, ?_,
      sumUsed_consumedWithSynthetic _ (by omega), rfl⟩
    show consumedWithSynthetic _ = _
    rw [consumedWithSynthetic, hleft, if_pos (by omega : (0:Int) < n - posSum (fetchRedeemEvents s phone rest))]

/-- Witness for C7: cached balance 100 but only 10 live event points; a
redeem of 50 succeeds with a synthetic correction of 40. -/
theorem redeem_synthetic_correction_witness :
    ∃ s' r, redeem_points sDrift 1 "p1" "r1" 50 "d" = .ok (s', r)
      ∧ ∃ rd, lookupDoc s'.redemptions r.redemption_id = some rd
        ∧ rd.consumed_events =
            (greedyConsume 50 (fetchRedeemEvents sDrift "p1" "r1")).consumed
              ++ [⟨"synthetic_balance_correction",
                    50 - posSum (fetchRedeemEvents sDrift "p1" "r1")⟩]
        ∧ sumUsed rd.consumed_events = 50
        ∧ r.new_balance = custDrift.points_balance - 50 :=
  redeem_synthetic_correction sDrift 1 "p1" "r1" "d" 50 custDrift
    (by decide) (by decide) (by decide) (by decide) (by decide)

/-- C2: the redemption window is ordered by ascending `expires_at`
(soonest-expiring first), and in the concrete two-event scenario —
E1 remaining 30 expiring earlier, E2 remaining 50 expiring later, listed in
the store in the opposite order — redeeming 40 consumes 30 from E1 then 10
from E2, leaving E1 `redeemed` and E2 `partial` with 40 remaining. -/
theorem redeem_fifo_order :
    (∀ (s : LedgerState) (phone rest : String),
      (fetchRedeemEvents s phone rest).Pairwise expiryLE)
    ∧ (redeem_points sTwo 2 "p1" "r1" 40 "d" = .ok (sTwoAfter, rTwoAfter)
        ∧ (∃ rd, lookupDoc sTwoAfter.redemptions rTwoAfter.redemption_id = some rd
            ∧ rd.consumed_events = [⟨"e1", 30⟩, ⟨"e2", 10⟩])
        ∧ lookupDoc sTwoAfter.point_events "e1" =
            some { eventOne with remaining := 0, status := "redeemed", redeemed_at := some 2 }
        ∧ lookupDoc sTwoAfter.point_events "e2" =
            some { eventTwo with remaining := 40, status := "partial", redeemed_at := some 2 }) := by
  constructor
  · exact pairwise_fetchRedeemEvents
  · refine ⟨by rfl, ⟨_, by rfl, by rfl⟩, by rfl, by rfl⟩

/-- C3: the redeem call fails with `ValidationError` on a non-positive
amount, `CustomerNotFound` when the customer document is absent, and
`InsufficientBalance` when the request exceeds the cached balance; every
failure leaves the store untouched, and a success implies the preconditions
held and the counter, redemption record and customer aggregate were all
written in the same transaction. -/
theorem redeem_error_contract (s : LedgerState) (now : Int)
    (phone rest desc : String) (n : Int) :
    (n ≤ 0 → redeem_points s now phone rest n desc = .error .ValidationError)
    ∧ (phone ≠ "" → 0 < n →
        lookupDoc s.customers (custId phone rest) = none →
        redeem_points s now phone rest n desc = .error .CustomerNotFound)
    ∧ (∀ cust, phone ≠ "" → 0 < n →
        lookupDoc s.customers (custId phone rest) = some cust →
        cust.points_balance < n →
        redeem_points s now phone rest n desc = .error .InsufficientBalance)
    ∧ (∀ e, redeem_points s now phone rest n desc = .error e →
        redeemEndState s now phone rest n desc = s)
    ∧ (∀ s' r, redeem_points s now phone rest n desc = .ok (s', r) →
        phone ≠ "" ∧ 0 < n ∧
        ∃ cust, lookupDoc s.customers (custId phone rest) = some cust
          ∧ n ≤ cust.points_balance
          ∧ s'.counters = some (redeemCount s)
          ∧ s'.point_events = applyEventUpdates now s.point_events
              (greedyConsume n (fetchRedeemEvents s phone rest)).updates
          ∧ lookupDoc s'.redemptions r.redemption_id =
              some ⟨r.redemption_id, phone, n, desc, rest,
                consumedWithSynthetic (greedyConsume n (fetchRedeemEvents s phone rest)),
                "completed", now, now⟩
          ∧ custBalance s' (custId phone rest) = cust.points_balance - n) := by
  refine ⟨?_, ?_, ?_, ?_, ?_⟩
  · intro hn
    by_cases hp : phone = "" <;> simp [redeem_points, hp, hn]
  · intro hp hn hcnone
    have hn' : ¬ n ≤ 0 := by omega
    simp [redeem_points, txn_redeem, hp, hn', hcnone]
  · intro cust hp hn hc hbal
    have hn' : ¬ n ≤ 0 := by omega
    simp [redeem_points, txn_redeem, hp, hn', hc, hbal]
  · intro e he
    unfold redeemEndState
    rw [he]
  · intro s' r hok
    obtain ⟨cust, hp, hn, hc, hb, heq⟩ := redeem_points_ok_inv hok
    have hs' : s' = (txn_redeem_writes s now phone rest n desc cust).1 :=
      congrArg Prod.fst heq
    have hr : r = (txn_redeem_writes s now phone rest n desc cust).2 :=
      congrArg Prod.snd heq
    refine ⟨hp, hn, cust, hc, hb, ?_, ?_, ?_, ?_⟩
    · rw [hs', txn_redeem_writes_counters]
    · rw [hs', txn_redeem_writes_point_events]
    · rw [hs', hr, txn_redeem_writes_redemptions, txn_redeem_writes_result]
      exact lookupDoc_setDoc_self _ _ _
    · rw [hs']
      unfold custBalance
      rw [txn_redeem_writes_customers, lookupDoc_updateDoc_self, hc]
      simp

/-- Witness for C3: the three rejection cases at concrete inputs, the
unchanged store on failure, and the success case of the FIFO scenario. -/
theorem redeem_error_contract_witness :
    redeem_points sTwo 0 "p1" "r1" 0 "d" = .error .ValidationError
    ∧ redeem_points emptyState 0 "p9" "r1" 5 "d" = .error .CustomerNotFound
    ∧ redeem_points sTwo 0 "p1" "r1" 999 "d" = .error .InsufficientBalance
    ∧ redeemEndState sTwo 0 "p1" "r1" 999 "d" = sTwo
    ∧ ("p1" ≠ "" ∧ (0:Int) < 40 ∧
        ∃ cust, lookupDoc sTwo.customers (custId "p1" "r1") = some cust
          ∧ 40 ≤ cust.points_balance
          ∧ sTwoAfter.counters = some (redeemCount sTwo)
          ∧ sTwoAfter.point_events = applyEventUpdates 2 sTwo.point_events
              (greedyConsume 40 (fetchRedeemEvents sTwo "p1" "r1")).updates
          ∧ lookupDoc sTwoAfter.redemptions rTwoAfter.redemption_id =
              some ⟨rTwoAfter.redemption_id, "p1", 40, "d", "r1",
                consumedWithSynthetic (greedyConsume 40 (fetchRedeemEvents sTwo "p1" "r1")),
                "completed", 2, 2⟩
          ∧ custBalance sTwoAfter (custId "p1" "r1") = cust.points_balance - 40) := by
  have h999 := redeem_error_contract sTwo 0 "p1" "r1" "d" 999
  have hbal : redeem_points sTwo 0 "p1" "r1" 999 "d" = .error .InsufficientBalance :=
    h999.2.2.1 custTwo (by decide) (by decide) (by decide) (by decide)
  have hok : redeem_points sTwo 2 "p1" "r1" 40 "d" = .ok (sTwoAfter, rTwoAfter) := by rfl
  exact ⟨(redeem_error_contract sTwo 0 "p1" "r1" "d" 0).1 (by decide),
    (redeem_error_contract emptyState 0 "p9" "r1" "d" 5).2.1
      (by decide) (by decide) (by decide),
    hbal, h999.2.2.2.1 _ hbal,
    (redeem_error_contract sTwo 2 "p1" "r1" "d" 40).2.2.2.2 sTwoAfter rTwoAfter hok⟩

/-- C4: a successful earn creates exactly one point event carrying
`remaining = points`, status `active` and expiry `now` plus the restaurant's
configured days (default 90); the customer's balance and lifetime earned
totals grow by the granted points, the visit count by one, `last_visit` is
stamped, and the display name is written only when it was unset and a
non-empty name was supplied. -/
theorem earn_effects (s : LedgerState) (now : Int)
    (tid phone name rest : String) (bill pts : Int)
    (h1 : tid ≠ "") (h2 : phone ≠ "") (h3 : bill ≠ 0) (h4 : pts ≠ 0)
    (hfresh : lookupDoc s.point_events ("pe_" ++ tid) = none) :
    ∃ s' res,
      create_transaction s now tid phone name rest bill pts = .ok (s', res)
      ∧ s'.point_events.length = s.point_events.length + 1
      ∧ lookupDoc s'.point_events ("pe_" ++ tid) =
          some ⟨pts, pts, phone, rest, now,
            now + ((lookupDoc s.restaurants rest).getD 90), false, "active", tid,
            none, none⟩
      ∧ res.expires_at = now + ((lookupDoc s.restaurants rest).getD 90)
      ∧ custBalance s' (custId phone rest) = custBalance s (custId phone rest) + pts
      ∧ custEarned s' (custId phone rest) = custEarned s (custId phone rest) + pts
      ∧ custVisits s' (custId phone rest) = custVisits s (custId phone rest) + 1
      ∧ custLastVisit s' (custId phone rest) = some now
      ∧ custName s' (custId phone rest) =
          (if custName s (custId phone rest) = "" ∧ name ≠ "" then name
           else custName s (custId phone rest)) := by
  refine ⟨(create_transaction_core s now tid phone name rest bill pts).1,
          (create_transaction_core s now tid phone name rest bill pts).2,
          ?_, ?_, ?_, ?_, ?_, ?_, ?_, ?_, ?_⟩
  · rw [create_transaction_ok h1 h2 h3 h4]
  · rw [create_transaction_core_point_events]
    exact length_setDoc _ _ _ hfresh
  · rw [create_transaction_core_point_events]
    exact lookupDoc_setDoc_self _ _ _
  · rw [create_transaction_core_result]
  · unfold custBalance
    rw [create_transaction_core_customers]
    cases hcust : lookupDoc s.customers (custId phone rest) <;>
      simp [lookupDoc_setDoc_self]
  · unfold custEarned
    rw [create_transaction_core_customers]
    cases hcust : lookupDoc s.customers (custId phone rest) <;>
      simp [lookupDoc_setDoc_self]
  · unfold custVisits
    rw [create_transaction_core_customers]
    cases hcust : lookupDoc s.customers (custId phone rest) <;>
      simp [lookupDoc_setDoc_self]
  · unfold custLastVisit
    rw [create_transaction_core_customers]
    cases hcust : lookupDoc s.customers (custId phone rest) <;>
      simp [lookupDoc_setDoc_self]
  · unfold custName
    rw [create_transaction_core_customers]
    cases hcust : lookupDoc s.customers (custId phone rest) with
    | none =>
      by_cases hname : name = "" <;> simp [lookupDoc_setDoc_self, hname]
    | some current =>
      by_cases hname : name = "" <;>
        simp [lookupDoc_setDoc_self, hname, and_comm]

/-- Witness for C4: a first earn of 10 points on an empty store. -/
theorem earn_effects_witness :
    ∃ s' res,
      create_transaction emptyState 0 "t1" "p1" "Al" "r1" 100 10 = .ok (s', res)
      ∧ s'.point_events.length = emptyState.point_events.length + 1
      ∧ lookupDoc s'.point_events ("pe_" ++ "t1") =
          some ⟨10, 10, "p1", "r1", 0,
            0 + ((lookupDoc emptyState.restaurants "r1").getD 90), false, "active",
            "t1", none, none⟩
      ∧ res.expires_at = 0 + ((lookupDoc emptyState.restaurants "r1").getD 90)
      ∧ custBalance s' (custId "p1" "r1") = custBalance emptyState (custId "p1" "r1") + 10
      ∧ custEarned s' (custId "p1" "r1") = custEarned emptyState (custId "p1" "r1") + 10
      ∧ custVisits s' (custId "p1" "r1") = custVisits emptyState (custId "p1" "r1") + 1
      ∧ custLastVisit s' (custId "p1" "r1") = some 0
      ∧ custName s' (custId "p1" "r1") =
          (if custName emptyState (custId "p1" "r1") = "" ∧ "Al" ≠ "" then "Al"
           else custName emptyState (custId "p1" "r1")) :=
  earn_effects emptyState 0 "t1" "p1" "Al" "r1" 100 10
    (by decide) (by decide) (by decide) (by decide) (by decide)

theorem nonneg_applyOp {s : LedgerState} {op : LedgerOp}
    (hop : earnNonneg op = true) (hs : NonnegBalances s) :
    NonnegBalances (applyOp s op) := by
  cases op with
  | earn now tid phone name rest bill pts =>
    have hpts : 0 ≤ pts := by simpa [earnNonneg] using hop
    cases hct : create_transaction s now tid phone name rest bill pts with
    | error e =>
      intro p hp
      simp only [applyOp, hct] at hp
      exact hs _ hp
    | ok pr =>
      obtain ⟨s', res⟩ := pr
      have hcore := create_transaction_ok_inv hct
      have hs' : s' = (create_transaction_core s now tid phone name rest bill pts).1 :=
        congrArg Prod.fst hcore
      intro p hp
      simp only [applyOp, hct] at hp
      rw [hs', create_transaction_core_customers] at hp
      cases hcust : lookupDoc s.customers (custId phone rest) with
      | some current =>
        rw [hcust] at hp
        rcases mem_setDoc hp with hq | hq
        · subst hq
          have hcur : (0:Int) ≤ current.points_balance :=
            hs _ (lookupDoc_mem hcust)
          simp only []
          omega
        · exact hs _ hq
      | none =>
        rw [hcust] at hp
        rcases mem_setDoc hp with hq | hq
        · subst hq
          simpa using hpts
        · exact hs _ hq
  | redeemOp now phone rest n desc =>
    cases hrd : redeem_points s now phone rest n desc with
    | error e =>
      intro p hp
      simp only [applyOp, hrd] at hp
      exact hs _ hp
    | ok pr =>
      obtain ⟨s', r⟩ := pr
      obtain ⟨cust, hp', hn', hc, hb, heq⟩ := redeem_points_ok_inv hrd
      have hs' : s' = (txn_redeem_writes s now phone rest n desc cust).1 :=
        congrArg Prod.fst heq
      intro p hp
      simp only [applyOp, hrd] at hp
      rw [hs', txn_redeem_writes_customers] at hp
      rcases mem_updateDoc hp with hq | ⟨v, hv, hq⟩
      · exact hs _ hq
      · subst hq
        simp only []
        omega
  
theorem nonneg_applyOps :
    ∀ (ops : List LedgerOp) (s : LedgerState),
      (∀ op ∈ ops, earnNonneg op = true) → NonnegBalances s →
      NonnegBalances (applyOps s ops)
  | [], _, _, hs => hs
  | op :: rest, s, hops, hs =>
    nonneg_applyOps rest (applyOp s op)
      (fun o ho => hops o (List.mem_cons_of_mem _ ho))
      (nonneg_applyOp (hops op (List.mem_cons_self _ _)) hs)

/-- C8 (amended): along any sequence of earn and redeem operations in which
every earn grants a nonnegative number of points (each redeem is subject to
the `InsufficientBalance` check inside `redeem_points`, and rejected calls
leave the store unchanged), every customer's `points_balance` is nonnegative
after every prefix of the sequence. -/
theorem nonneg_balances_of_ops (ops : List LedgerOp) (s : LedgerState)
    (hops : ∀ op ∈ ops, earnNonneg op = true) (hs : NonnegBalances s) :
    ∀ pre suff, ops = pre ++ suff → NonnegBalances (applyOps s pre) := by
  intro pre suff heq
  refine nonneg_applyOps pre s (fun op ho => hops op ?_) hs
  rw [heq]
  exact List.mem_append_left _ ho

/-- Counterexample to C8 as stated: the earn validation only rejects falsy
fields, so an earn of −5 points is accepted (it is a well-formed sequence of
operations with no redeem at all), and it leaves the customer's balance at
−5, violating non-negativity. -/
theorem negative_earn_counterexample :
    (create_transaction emptyState 0 "t1" "p1" "" "r1" 50 (-5)).isOk = true
    ∧ custBalance (applyOps emptyState [LedgerOp.earn 0 "t1" "p1" "" "r1" 50 (-5)])
        (custId "p1" "r1") = -5
    ∧ ¬ NonnegBalances
        (applyOps emptyState [LedgerOp.earn 0 "t1" "p1" "" "r1" 50 (-5)]) := by
  decide

/-- Witness for C8 (amended): an earn of 10 followed by a redeem of 5 keeps
all balances nonnegative. -/
theorem nonneg_balances_of_ops_witness :
    NonnegBalances (applyOps emptyState
      [LedgerOp.earn 0 "t1" "p1" "" "r1" 50 10, LedgerOp.redeemOp 1 "p1" "r1" 5 "d"]) :=
  nonneg_balances_of_ops
    [LedgerOp.earn 0 "t1" "p1" "" "r1" 50 10, LedgerOp.redeemOp 1 "p1" "r1" 5 "d"]
    emptyState (by decide) (by decide)
    [LedgerOp.earn 0 "t1" "p1" "" "r1" 50 10, LedgerOp.redeemOp 1 "p1" "r1" 5 "d"]
    [] rfl

/-- C9 (code behaviour at the failing input): `create_transaction` has no
duplicate-transaction guard — repeating the earn call with the same
`transaction_id` is accepted, overwrites the point event document
(`pe_<transaction_id>`, so the event count stays the same) and re-applies
every customer increment: balance and lifetime earned double to 20 and the
visit count reaches 2. -/
theorem earn_duplicate_double_applies :
    (create_transaction s9 1 "t1" "p1" "Al" "r1" 100 10).isOk = true
    ∧ custBalance s9 (custId "p1" "r1") = 10
    ∧ custBalance (applyOps s9 [LedgerOp.earn 1 "t1" "p1" "Al" "r1" 100 10])
        (custId "p1" "r1") = 20
    ∧ custVisits (applyOps s9 [LedgerOp.earn 1 "t1" "p1" "Al" "r1" 100 10])
        (custId "p1" "r1") = 2
    ∧ custEarned (applyOps s9 [LedgerOp.earn 1 "t1" "p1" "Al" "r1" 100 10])
        (custId "p1" "r1") = 20
    ∧ (applyOps s9 [LedgerOp.earn 1 "t1" "p1" "Al" "r1" 100 10]).point_events.length
        = s9.point_events.length := by
  decide

/-- C10: the balance-reconciliation read always reports the cached
`points_balance`; with `recompute` requested it additionally reports the sum
of `remaining` over the customer's point events with status in
{active, partial} and a flag that holds exactly when that recomputed total
equals the cached balance.  `checkBalance` is a pure function of the store,
so it performs no writes. -/
theorem checkBalance_spec (s : LedgerState) (phone rest : String) (c : Customer)
    (hc : lookupDoc s.customers (custId phone rest) = some c) :
    (checkBalance s phone rest false).points_balance = c.points_balance
    ∧ (checkBalance s phone rest false).recomputed_balance = none
    ∧ (checkBalance s phone rest true).points_balance = c.points_balance
    ∧ (checkBalance s phone rest true).recomputed_balance =
        some (liveEventSum s phone rest)
    ∧ ((checkBalance s phone rest true).balance_match = some true ↔
        liveEventSum s phone rest = c.points_balance) := by
  have hfold : (s.point_events.filter (fun p =>
        p.2.customer_phone == phone && p.2.restaurant_id == rest
          && isLiveStatus p.2.status)).foldl (fun acc p => acc + p.2.remaining) 0
      = liveEventSum s phone rest := by
    rw [liveEventSum, foldl_add_eq_sum (fun p => p.2.remaining)]
    ring
  refine ⟨?_, ?_, ?_, ?_, ?_⟩ <;>
    simp [checkBalance, hc, hfold, decide_eq_true_iff]

/-- Witness for C10: the concrete store with cached balance 80 and live
events summing to 80. -/
theorem checkBalance_spec_witness :
    (checkBalance sTwo "p1" "r1" false).points_balance = custTwo.points_balance
    ∧ (checkBalance sTwo "p1" "r1" false).recomputed_balance = none
    ∧ (checkBalance sTwo "p1" "r1" true).points_balance = custTwo.points_balance
    ∧ (checkBalance sTwo "p1" "r1" true).recomputed_balance =
        some (liveEventSum sTwo "p1" "r1")
    ∧ ((checkBalance sTwo "p1" "r1" true).balance_match = some true ↔
        liveEventSum sTwo "p1" "r1" = custTwo.points_balance) :=
  checkBalance_spec sTwo "p1" "r1" custTwo (by decide)
